import Mathlib

/-!
Shallow embedding of the `catalog-api-golang` items core (handler, service,
repository) for checking its specification.  Pure Go functions become Lean
functions; database state becomes an explicit list of rows; fallible Go code
returns `Except`.  Definitions mirror the Go source files
`internal/items/service.go`, `internal/items/handler.go`,
`internal/items/model.go` and the full repository file (`Repository.Insert`,
`List`, `Count`, `GetByID`, `Update`, `Delete`).
-/

namespace Catalog

/-! ### Basic character / string helpers -/

/-- Go `unicode.IsSpace` on the Latin-1 range, which is what
`strings.TrimSpace` strips from both ends: `\t \n \v \f \r ' '` plus
U+0085 (NEL) and U+00A0 (NBSP).  (Higher Unicode space code points exist in
Go as well; none of the claims involve them.) -/
def isSpaceGo (c : Char) : Bool :=
  c = ' ' || c = '\t' || c = '\n' || (c = Char.ofNat 0x0b) || (c = Char.ofNat 0x0c) ||
  c = '\r' || c = Char.ofNat 0x85 || c = Char.ofNat 0xa0

/-- Go `strings.TrimSpace` on the character list of a string. -/
def trimSpace (cs : List Char) : List Char :=
  ((cs.dropWhile isSpaceGo).reverse.dropWhile isSpaceGo).reverse

/-- ASCII decimal digit, `\d` of the price regex. -/
def isDigitCh (c : Char) : Bool := '0' ≤ c && c ≤ '9'

/-! ### Price validation (`service.go`: `pricePattern`, `isValidPrice`,
`isPositiveNonZero`) -/

/-- Matcher for the anchored regex `^\d+(\.\d{1,2})?$` from
`var pricePattern = regexp.MustCompile(...)` in `service.go`: one or more
digits, optionally followed by a dot and one or two digits.  Maximal-munch
digit scanning is equivalent to the regex here because after `\d+` the only
possible continuations are `.` or end of input. -/
def pricePatternMatch (cs : List Char) : Bool :=
  let intPart := cs.takeWhile isDigitCh
  let rest := cs.dropWhile isDigitCh
  intPart ≠ [] &&
    match rest with
    | [] => true
    | c :: fracPart =>
        c = '.' && fracPart ≠ [] && fracPart.length ≤ 2 && fracPart.all isDigitCh

/-- `isPositiveNonZero` from `service.go`: some character is in `'1'..'9'`. -/
def isPositiveNonZero (cs : List Char) : Bool :=
  cs.any fun c => '1' ≤ c && c ≤ '9'

/-- `isValidPrice` from `service.go`: trim, match the pattern, and require a
nonzero digit. -/
def isValidPrice (value : String) : Bool :=
  let price := trimSpace value.data
  pricePatternMatch price && isPositiveNonZero price

/-- Independent, declarative reading of the regex `^\d+(\.\d{1,2})?$`,
written from the spec text: the string splits into a nonempty all-digit
integer part, optionally followed by `'.'` and one or two fraction digits. -/
def PricePatternSpec (cs : List Char) : Prop :=
  ∃ intPart fracTail, cs = intPart ++ fracTail ∧ intPart ≠ [] ∧
    (∀ c ∈ intPart, isDigitCh c) ∧
    (fracTail = [] ∨ ∃ fracPart, fracTail = '.' :: fracPart ∧ fracPart ≠ [] ∧
      fracPart.length ≤ 2 ∧ ∀ c ∈ fracPart, isDigitCh c)

theorem takeWhile_eq_of_append {p : Char → Bool} (a b : List Char)
    (ha : ∀ c ∈ a, p c) (hb : ∀ h t, b = h :: t → p h = false) :
    (a ++ b).takeWhile p = a := by
  induction a with
  | nil =>
      cases b with
      | nil => rfl
      | cons h t => simp [List.takeWhile, hb h t rfl]
  | cons x xs ih =>
      have hx : p x = true := ha x (by simp)
      simp only [List.cons_append, List.takeWhile, hx]
      exact congrArg (x :: ·) (ih fun c hc => ha c (by simp [hc]))

theorem dropWhile_eq_of_append {p : Char → Bool} (a b : List Char)
    (ha : ∀ c ∈ a, p c) (hb : ∀ h t, b = h :: t → p h = false) :
    (a ++ b).dropWhile p = b := by
  induction a with
  | nil =>
      cases b with
      | nil => rfl
      | cons h t => simp [List.dropWhile, hb h t rfl]
  | cons x xs ih =>
      have hx : p x = true := ha x (by simp)
      simp only [List.cons_append, List.dropWhile, hx]
      exact ih fun c hc => ha c (by simp [hc])

/-- The executable matcher agrees with the declarative regex reading. -/
theorem pricePatternMatch_iff (cs : List Char) :
    pricePatternMatch cs = true ↔ PricePatternSpec cs := by
  constructor
  · intro h
    unfold pricePatternMatch at h
    refine ⟨cs.takeWhile isDigitCh, cs.dropWhile isDigitCh,
      (List.takeWhile_append_dropWhile isDigitCh cs).symm, ?_, ?_, ?_⟩
    · simp only [Bool.and_eq_true, decide_eq_true_eq, ne_eq] at h
      exact h.1
    · intro c hc; exact List.mem_takeWhile_imp hc
    · simp only [Bool.and_eq_true, decide_eq_true_eq, ne_eq] at h
      rcases hrest : cs.dropWhile isDigitCh with _ | ⟨c, t⟩
      · exact Or.inl rfl
      · right
        have h2 := h.2
        rw [hrest] at h2
        simp only [Bool.and_eq_true, decide_eq_true_eq, ne_eq,
          List.all_eq_true] at h2
        exact ⟨t, by rw [h2.1.1.1], h2.1.1.2, h2.1.2, h2.2⟩
  · rintro ⟨a, b, rfl, hne, hdig, hb⟩
    have hbhead : ∀ h t, b = h :: t → isDigitCh h = false := by
      rcases hb with rfl | ⟨f, rfl, _, _, _⟩
      · intro h t ht; cases ht
      · intro h t ht
        cases ht
        rfl
    unfold pricePatternMatch
    rw [takeWhile_eq_of_append a b hdig hbhead,
      dropWhile_eq_of_append a b hdig hbhead]
    rcases hb with rfl | ⟨f, rfl, hfne, hflen, hfdig⟩
    · simp [hne]
    · simp only [Bool.and_eq_true, decide_eq_true_eq, ne_eq,
        List.all_eq_true]
      exact ⟨hne, ⟨⟨⟨trivial, hfne⟩, hflen⟩, hfdig⟩⟩

/-! ### Data model (`model.go`) and domain errors (`service.go`) -/

/-- Error values observable in the Go code: the three domain errors declared
in `service.go`, the driver signal `pgx.ErrNoRows`, a Postgres error with its
SQLSTATE code (matched via `errors.As` + `pgconn.PgError`), and the handler's
`invalid_json` client failure from `handler.go`. -/
inductive Err where
  | invalidInput
  | duplicateName
  | notFound
  | noRows
  | pgError (code : String)
  | invalidJson
deriving Repr, DecidableEq

/-- `Item` from `model.go`.  Timestamps are modelled as integers. -/
structure Item where
  id : String
  name : String
  description : Option String
  price : String
  stock : Int
  createdAt : Int
  updatedAt : Int
deriving Repr, DecidableEq

/-- `CreateItemInput` from `model.go`. -/
structure CreateItemInput where
  name : String
  description : Option String
  price : String
  stock : Int
deriving Repr, DecidableEq

/-- `UpdateItemInput` from `model.go`: pointer fields become `Option`, plus
the out-of-band `DescriptionPresent` flag. -/
structure UpdateItemInput where
  name : Option String
  description : Option String
  price : Option String
  stock : Option Int
  descriptionPresent : Bool
deriving Repr, DecidableEq

/-- `strings.TrimSpace` lifted back to `String`. -/
def goTrim (s : String) : String := ⟨trimSpace s.data⟩

/-! ### Service validation (`service.go`: `Service.Create`, `Service.Update`,
`Service.List`) -/

/-- Validation/normalization phase of `Service.Create`, up to (but not
including) the call `service.repository.Insert`: trim name and price, then
reject empty name, empty price, invalid price, negative stock, in that
order.  `.ok` carries the normalized input passed to the store. -/
def serviceCreateCheck (input : CreateItemInput) : Except Err CreateItemInput :=
  let name := goTrim input.name
  let price := goTrim input.price
  if name = "" then .error .invalidInput
  else if price = "" then .error .invalidInput
  else if !isValidPrice price then .error .invalidInput
  else if input.stock < 0 then .error .invalidInput
  else .ok { input with name := name, price := price }

/-- Stock step of `Service.Update` validation:
`if itemInputUpdated.Stock != nil && *itemInputUpdated.Stock < 0`. -/
def updateCheckStock (u : UpdateItemInput) : Except Err UpdateItemInput :=
  match u.stock with
  | some s => if s < 0 then .error .invalidInput else .ok u
  | none => .ok u

/-- Price step of `Service.Update` validation: trim, reject empty or invalid,
store the trimmed value back. -/
def updateCheckPrice (u : UpdateItemInput) : Except Err UpdateItemInput :=
  match u.price with
  | some p =>
      let p := goTrim p
      if p = "" then .error .invalidInput
      else if !isValidPrice p then .error .invalidInput
      else updateCheckStock { u with price := some p }
  | none => updateCheckStock u

/-- Validation phase of `Service.Update`, up to (but not including) the call
`service.repository.Update`: the at-least-one-field guard (which tests the
four pointers `Name`, `Description`, `Price`, `Stock` against nil and does
not consult `DescriptionPresent`), then name, price and stock checks. -/
def serviceUpdateCheck (u : UpdateItemInput) : Except Err UpdateItemInput :=
  if u.name = none ∧ u.description = none ∧ u.price = none ∧ u.stock = none then
    .error .invalidInput
  else
    match u.name with
    | some n =>
        let n := goTrim n
        if n = "" then .error .invalidInput
        else updateCheckPrice { u with name := some n }
    | none => updateCheckPrice u

/-- Two's-complement wraparound of Go's 64-bit `int`, applied where Go
arithmetic can overflow. -/
def wrap64 (x : Int) : Int := (x + 2 ^ 63) % 2 ^ 64 - 2 ^ 63

/-- `Service.List` up to (but not including) the store calls: reject
`page < 1 || limit < 1`, trim the query, compute `offset := (page-1)*limit`
(Go 64-bit arithmetic).  `.ok` carries `(trimmed query, limit, offset)` — the
arguments handed to `repository.List`. -/
def serviceList (page limit : Int) (nameQuery : String) :
    Except Err (String × Int × Int) :=
  if page < 1 || limit < 1 then .error .invalidInput
  else .ok (goTrim nameQuery, limit, wrap64 ((page - 1) * limit))

/-! ### Repository (`repository.go` / the full repository file) over an
explicit database state.  The items table is a list of rows; the unique
index `ux_items_name` and DB-generated id/timestamps are part of the
execution model. -/

/-- The items table. -/
abbrev Db := List Item

/-- `Repository.Insert` semantics: a unique-violation (SQLSTATE 23505 from
`ux_items_name`) is translated to `ErrorDuplicateName`; otherwise the row is
inserted with DB-generated id and timestamps and returned via `RETURNING`. -/
def repoInsert (db : Db) (genId : String) (now : Int) (input : CreateItemInput) :
    Except Err Item × Db :=
  if db.any fun r => r.name = input.name then (.error .duplicateName, db)
  else
    let item : Item :=
      ⟨genId, input.name, input.description, input.price, input.stock, now, now⟩
    (.ok item, db ++ [item])

/-- `Repository.GetByID`: the scan error is returned as-is, so a missing row
surfaces as the driver signal `pgx.ErrNoRows` (as the function's own comment
documents), not as a domain error. -/
def repoGetByID (db : Db) (id : String) : Except Err Item :=
  match db.find? (fun r => r.id = id) with
  | none => .error .noRows
  | some r => .ok r

/-- `Service.Get`: translates `pgx.ErrNoRows` to `ErrorNotFound`, passes any
other error through. -/
def serviceGet (db : Db) (id : String) : Except Err Item :=
  match repoGetByID db id with
  | .error e => if e = .noRows then .error .notFound else .error e
  | .ok it => .ok it

/-- `Service.Create`: validation followed by `repository.Insert`; on a
validation failure the store is never invoked and the state is returned
untouched. -/
def serviceCreateRun (db : Db) (genId : String) (now : Int)
    (input : CreateItemInput) : Except Err Item × Db :=
  match serviceCreateCheck input with
  | .error e => (.error e, db)
  | .ok input' => repoInsert db genId now input'

/-! ### Dynamic update statement (`Repository.Update`) -/

/-- A value passed positionally to the driver (never interpolated into SQL
text). -/
inductive DbVal where
  | str (v : String)
  | int (v : Int)
deriving Repr, DecidableEq

/-- The statement `Repository.Update` hands to `QueryRow`: the composed SQL
text, the `setParts` fragments it was built from, and the positional
argument list. -/
structure UpdateStmt where
  setParts : List String
  args : List DbVal
  query : String
deriving Repr, DecidableEq

/-- Statement-building phase of `Repository.Update`, mirroring the Go
locals `setParts`, `args`, `argPos` and the `addSet` helper: `name`, then
`description` (gated on `DescriptionPresent`, with a literal
`description = NULL` fragment when the pointer is nil), then `price`
(with `::numeric` cast), then `stock`; if no fragment was added, return
`ErrorInvalidInput` without executing anything; otherwise append
`updated_at = now()`, append the id as the last argument, and format the
final query text. -/
def buildUpdateStatement (id : String) (u : UpdateItemInput) :
    Except Err UpdateStmt :=
  let sp : List String := []
  let ar : List DbVal := []
  let pos : Nat := 1
  let (sp, ar, pos) :=
    match u.name with
    | some n => (sp ++ ["name = $" ++ toString pos], ar ++ [DbVal.str n], pos + 1)
    | none => (sp, ar, pos)
  let (sp, ar, pos) :=
    if u.descriptionPresent then
      match u.description with
      | some d =>
          (sp ++ ["description = $" ++ toString pos], ar ++ [DbVal.str d], pos + 1)
      | none => (sp ++ ["description = NULL"], ar, pos)
    else (sp, ar, pos)
  let (sp, ar, pos) :=
    match u.price with
    | some p =>
        (sp ++ ["price = $" ++ toString pos ++ "::numeric"], ar ++ [DbVal.str p], pos + 1)
    | none => (sp, ar, pos)
  let (sp, ar, pos) :=
    match u.stock with
    | some s => (sp ++ ["stock = $" ++ toString pos], ar ++ [DbVal.int s], pos + 1)
    | none => (sp, ar, pos)
  if sp = [] then .error .invalidInput
  else
    let sp := sp ++ ["updated_at = now()"]
    let ar := ar ++ [DbVal.str id]
    .ok { setParts := sp
          args := ar
          query := "\n\t\tUPDATE items\n\t\tSET " ++ String.intercalate ", " sp ++
            "\n\t\tWHERE id = $" ++ toString pos ++
            "\n\t\tRETURNING id, name, description, price::text, stock, created_at, updated_at;\n\t" }

/-- Execution phase of `Repository.Update`: run the composed single-row
`UPDATE ... WHERE id = ... RETURNING ...` against the table.  A missing row
surfaces as `pgx.ErrNoRows`, translated by the Go code to `ErrorNotFound`;
a name collision trips the unique index (SQLSTATE 23505), translated to
`ErrorDuplicateName`.  Building failure leaves the state untouched (no
statement is executed). -/
def repoUpdateRun (db : Db) (now : Int) (id : String) (u : UpdateItemInput) :
    Except Err Item × Db :=
  match buildUpdateStatement id u with
  | .error e => (.error e, db)
  | .ok _ =>
      match db.find? (fun r => r.id = id) with
      | none => (.error .notFound, db)
      | some r =>
          let r' : Item :=
            { r with
              name := u.name.getD r.name
              description := if u.descriptionPresent then u.description else r.description
              price := u.price.getD r.price
              stock := u.stock.getD r.stock
              updatedAt := now }
          if db.any fun o => o.id ≠ id && o.name = r'.name then
            (.error .duplicateName, db)
          else (.ok r', db.map fun o => if o.id = id then r' else o)

/-- `Service.Update`: validation (`serviceUpdateCheck`) followed by
`repository.Update`; the error switch in the Go code maps `ErrorNotFound`
and `ErrorDuplicateName` to themselves and passes other errors through, so
it is the identity on the store result. -/
def serviceUpdateRun (db : Db) (now : Int) (id : String) (u : UpdateItemInput) :
    Except Err Item × Db :=
  match serviceUpdateCheck u with
  | .error e => (.error e, db)
  | .ok u' => repoUpdateRun db now id u'

/-! ### List and Count (`repository.go`: `Repository.List`,
`Repository.Count`) -/

/-- Bool-valued list containment of `needle` in `hay` (contiguous sublist). -/
def isPrefixList (needle hay : List Char) : Bool :=
  match needle, hay with
  | [], _ => true
  | _ :: _, [] => false
  | a :: b, c :: d => a = c && isPrefixList b d

/-- `needle` occurs contiguously somewhere in `hay`. -/
def containsSub (hay needle : List Char) : Bool :=
  match hay with
  | [] => isPrefixList needle []
  | c :: t => isPrefixList needle (c :: t) || containsSub t needle

/-- Lower-cased character list of a string. -/
def lowerChars (s : String) : List Char := s.data.map Char.toLower

/-- Row filter of `Repository.List`: the branch on `nameQuery == ""` and the
semantics of its `WHERE name ILIKE '%' || $3 || '%'` fragment
(case-insensitive substring on `name`). -/
def listRowMatches (nameQuery : String) (rowName : String) : Bool :=
  if nameQuery = "" then true
  else containsSub (lowerChars rowName) (lowerChars nameQuery)

/-- Row filter of `Repository.Count`: the branch on `nameQuery == ""` and the
semantics of its `WHERE name ILIKE '%' || $1 || '%'` fragment. -/
def countRowMatches (nameQuery : String) (rowName : String) : Bool :=
  if nameQuery = "" then true
  else containsSub (lowerChars rowName) (lowerChars nameQuery)

/-- `ORDER BY created_at DESC`. -/
def sortByCreatedDesc (rows : List Item) : List Item :=
  rows.mergeSort fun a b => b.createdAt ≤ a.createdAt

/-- `Repository.List` semantics: filter, order by creation time descending,
then `LIMIT $1 OFFSET $2`. -/
def repoList (db : Db) (nameQuery : String) (limit offset : Nat) : List Item :=
  ((sortByCreatedDesc (db.filter fun r => listRowMatches nameQuery r.name)).drop
    offset).take limit

/-- `Repository.Count` semantics: `SELECT COUNT(*)` under the same optional
`WHERE` clause. -/
def repoCount (db : Db) (nameQuery : String) : Nat :=
  (db.filter fun r => countRowMatches nameQuery r.name).length

/-! ### PATCH decoding (`handler.go`: `Handler.Patch`) -/

/-- JSON values as far as this payload shape needs them. -/
inductive Jval where
  | jnull
  | jstr (s : String)
  | jnum (n : Int)
  | jbool (b : Bool)
deriving Repr, DecidableEq

/-- A JSON object payload: ordered key/value pairs (duplicates allowed;
`encoding/json` keeps the last one when decoding into a map). -/
abbrev Payload := List (String × Jval)

/-- Effective value of key `k` after decoding into `map[string]json.RawMessage`
(last duplicate wins); `none` when the key is absent. -/
def lastVal (p : Payload) (k : String) : Option Jval :=
  (p.filterMap fun kv => if kv.1 = k then some kv.2 else none).getLast?

/-- `encoding/json` semantics for a `*string` struct field: an absent key or
an explicit `null` leaves the pointer nil without error; a string sets it; a
value of any other type is an unmarshal type error (the handler answers
`invalid_json`). -/
def decodeStrField (v : Option Jval) : Except Err (Option String) :=
  match v with
  | none => .ok none
  | some .jnull => .ok none
  | some (.jstr s) => .ok (some s)
  | some _ => .error .invalidJson

/-- `encoding/json` semantics for a `*int` struct field. -/
def decodeIntField (v : Option Jval) : Except Err (Option Int) :=
  match v with
  | none => .ok none
  | some .jnull => .ok none
  | some (.jnum n) => .ok (some n)
  | some _ => .error .invalidJson

/-- Decoding pipeline of `Handler.Patch`: decode the body into a raw key map,
re-decode into `UpdateItemInput` (field semantics per `encoding/json`), then
set `DescriptionPresent` from raw-key presence of `"description"`. -/
def decodePatch (p : Payload) : Except Err UpdateItemInput := do
  let name ← decodeStrField (lastVal p "name")
  let desc ← decodeStrField (lastVal p "description")
  let price ← decodeStrField (lastVal p "price")
  let stock ← decodeIntField (lastVal p "stock")
  .ok { name := name, description := desc, price := price, stock := stock,
        descriptionPresent := (lastVal p "description").isSome }

/-! ### Presence patterns and derived shapes of the dynamic update -/

/-- Presence pattern of an `UpdateItemInput`: which pointers are non-nil and
the `DescriptionPresent` flag — everything the composed SQL text may depend
on. -/
def patternOf (u : UpdateItemInput) : Bool × Bool × Bool × Bool × Bool :=
  (u.name.isSome, u.descriptionPresent, u.description.isSome,
   u.price.isSome, u.stock.isSome)

/-- A canonical input having a given presence pattern (placeholder values). -/
def canonInput (p : Bool × Bool × Bool × Bool × Bool) : UpdateItemInput :=
  ⟨if p.1 then some "" else none,
   if p.2.2.1 then some "" else none,
   if p.2.2.2.1 then some "" else none,
   if p.2.2.2.2 then some 0 else none,
   p.2.1⟩

/-- The SQL text determined by a presence pattern alone. -/
def queryShape (p : Bool × Bool × Bool × Bool × Bool) : Except Err String :=
  (buildUpdateStatement "" (canonInput p)).map fun st => st.query

/-- The positional argument list the Go builder accumulates: the present
field values in field order, then the id. -/
def expectedArgs (id : String) (u : UpdateItemInput) : List DbVal :=
  (match u.name with | some n => [DbVal.str n] | none => []) ++
  (if u.descriptionPresent then
     match u.description with | some d => [DbVal.str d] | none => []
   else []) ++
  (match u.price with | some p => [DbVal.str p] | none => []) ++
  (match u.stock with | some s => [DbVal.int s] | none => []) ++
  [DbVal.str id]

/-- Column assigned by a set-clause fragment: the text before the first
space. -/
def colName (s : String) : String := ⟨s.data.takeWhile fun c => c ≠ ' '⟩

/-- Columns the spec says an update may assign: the fields present in the
input (name/price/stock when non-nil, description when the presence flag is
set). -/
def presentColumns (u : UpdateItemInput) : List String :=
  (if u.name.isSome then ["name"] else []) ++
  (if u.descriptionPresent then ["description"] else []) ++
  (if u.price.isSome then ["price"] else []) ++
  (if u.stock.isSome then ["stock"] else [])

/-! ### Concrete sample data for witnesses -/

/-- A persisted sample row. -/
def sampleItem : Item :=
  ⟨"11111111-1111-1111-1111-111111111111", "Widget", some "d", "10.00", 3, 0, 0⟩

/-- A one-row table. -/
def sampleDb : Db := [sampleItem]

/-- A two-row table for List/Count examples. -/
def sampleListDb : Db :=
  [⟨"a1", "Phone X", none, "5.00", 1, 2, 2⟩, ⟨"b2", "Mouse", none, "3.00", 2, 1, 1⟩]

/-! ## Claims -/

/-- Claim C2: for every input string, price validation accepts if and only
if, after trimming, the string matches `^\d+(\.\d{1,2})?$` (stated via the
independent declarative reading `PricePatternSpec`) and contains at least
one digit in `1..9`; in particular "10", "10.5", "10.50" are accepted and
"0", "0.00", "00.00", "aaa", "-1.00", ",00", ".50" are rejected. -/
theorem c2_price_validation :
    (∀ s : String, isValidPrice s = true ↔
      (PricePatternSpec (trimSpace s.data) ∧
        ∃ c ∈ trimSpace s.data, '1' ≤ c ∧ c ≤ '9')) ∧
    (isValidPrice "10" = true ∧ isValidPrice "10.5" = true ∧
      isValidPrice "10.50" = true) ∧
    (isValidPrice "0" = false ∧ isValidPrice "0.00" = false ∧
      isValidPrice "00.00" = false ∧ isValidPrice "aaa" = false ∧
      isValidPrice "-1.00" = false ∧ isValidPrice ",00" = false ∧
      isValidPrice ".50" = false) := by
  refine ⟨?_, ⟨rfl, rfl, rfl⟩, rfl, rfl, rfl, rfl, rfl, rfl, rfl⟩
  intro s
  unfold isValidPrice
  rw [Bool.and_eq_true, pricePatternMatch_iff]
  simp [isPositiveNonZero, List.any_eq_true, Bool.and_eq_true,
    decide_eq_true_eq]

/-- Claim C1 (evaluated at the failing input): the payload
`{"description": null}` does decode to `DescriptionPresent = true` with nil
value, but `Service.Update` then rejects it with `ErrorInvalidInput` at the
at-least-one-field guard — which tests only the four pointers and ignores
`DescriptionPresent` — so the update never reaches storage and the
description column is not cleared, although a matching row exists. -/
theorem c1_description_null_rejected_before_store :
    decodePatch [("description", Jval.jnull)] =
      .ok ⟨none, none, none, none, true⟩ ∧
    serviceUpdateRun sampleDb 9 sampleItem.id ⟨none, none, none, none, true⟩ =
      (.error .invalidInput, sampleDb) :=
  ⟨rfl, rfl⟩

/-- Claim C3, counterexample: a payload carrying `"name": null` (plus a
stock update) decodes without any error — the null name is dropped to a nil
pointer, exactly as if the key were absent — contradicting the claim that
decoding fails with a client error. -/
theorem c3_null_name_decodes_without_error :
    decodePatch [("name", Jval.jnull), ("stock", Jval.jnum 5)] =
      .ok ⟨none, none, none, some 5, false⟩ :=
  rfl

/-- Claim C3 as amended: for the non-nullable optional keys name, price and
stock, a present-with-null value does not fail decoding; `encoding/json`
leaves the pointer nil, so the field is silently treated as absent (and the
rest of the payload takes effect — here the stock-only update proceeds to
storage).  Only a value of the wrong type fails decoding. -/
theorem c3_null_nonnullable_treated_as_absent :
    decodePatch [("name", Jval.jnull)] = .ok ⟨none, none, none, none, false⟩ ∧
    decodePatch [("price", Jval.jnull)] = .ok ⟨none, none, none, none, false⟩ ∧
    decodePatch [("stock", Jval.jnull)] = .ok ⟨none, none, none, none, false⟩ ∧
    serviceUpdateRun sampleDb 9 sampleItem.id ⟨none, none, none, some 5, false⟩ =
      (.ok { sampleItem with stock := 5, updatedAt := 9 },
        [{ sampleItem with stock := 5, updatedAt := 9 }]) ∧
    decodePatch [("name", Jval.jbool true)] = .error .invalidJson :=
  ⟨rfl, rfl, rfl, rfl, rfl⟩

/-- Claim C5, counterexample: on an empty table, the repository's `GetByID`
returns the storage-native driver signal `pgx.ErrNoRows` — not the domain
error `NotFound` — so the repository does propagate a storage-native
no-rows signal upward, contrary to the claim. -/
theorem c5_getbyid_propagates_norows :
    repoGetByID [] "missing" = .error .noRows ∧ Err.noRows ≠ Err.notFound :=
  ⟨rfl, by decide⟩

/-- Claim C5 as amended: when no row matches, `Repository.GetByID` returns
the driver's no-rows signal unchanged (as its own comment documents), and it
is `Service.Get` that translates that signal into the domain error
`NotFound`; the storage-native signal therefore crosses the repository
boundary and is absorbed one layer up. -/
theorem c5_norows_translated_in_service (db : Db) (id : String)
    (h : db.find? (fun r => r.id = id) = none) :
    repoGetByID db id = .error .noRows ∧ serviceGet db id = .error .notFound := by
  have hg : repoGetByID db id = .error .noRows := by
    unfold repoGetByID
    rw [h]
  refine ⟨hg, ?_⟩
  unfold serviceGet
  rw [hg]
  rfl

/-- Witness for the amended C5 theorem at a concrete empty table. -/
theorem c5_norows_translated_in_service_witness :
    repoGetByID [] "x" = .error .noRows ∧ serviceGet [] "x" = .error .notFound :=
  c5_norows_translated_in_service [] "x" rfl

/-- Claim C10: an input whose only non-nil field is `Description` but whose
`DescriptionPresent` flag is false passes the service's at-least-one-field
check (the validation phase returns it unchanged), yet the store gates the
description column on `DescriptionPresent`, composes an empty set-clause and
returns `ErrorInvalidInput`; end-to-end the update fails with
`ErrorInvalidInput` coming from the store's defensive check, with the state
untouched. -/
theorem c10_service_store_presence_mismatch (d : String) (db : Db) (now : Int)
    (id : String) :
    serviceUpdateCheck ⟨none, some d, none, none, false⟩ =
      .ok ⟨none, some d, none, none, false⟩ ∧
    buildUpdateStatement id ⟨none, some d, none, none, false⟩ =
      .error .invalidInput ∧
    serviceUpdateRun db now id ⟨none, some d, none, none, false⟩ =
      (.error .invalidInput, db) :=
  ⟨rfl, rfl, rfl⟩

/-- Claim C9: `Service.List` returns `ErrorInvalidInput` whenever `page < 1`
or `limit < 1`; otherwise it invokes the store with the trimmed query, the
limit unchanged (in particular no upper bound is imposed by the service),
and offset exactly `(page-1)*limit` (exact as long as the Go 64-bit product
does not overflow). -/
theorem c9_service_list :
    (∀ (page limit : Int) (q : String), page < 1 ∨ limit < 1 →
      serviceList page limit q = .error .invalidInput) ∧
    (∀ (page limit : Int) (q : String), 1 ≤ page → 1 ≤ limit →
      (page - 1) * limit < 2 ^ 63 →
      serviceList page limit q = .ok (goTrim q, limit, (page - 1) * limit)) := by
  constructor
  · intro page limit q h
    unfold serviceList
    have hc : (decide (page < 1) || decide (limit < 1)) = true := by
      rcases h with h | h <;> simp [h]
    rw [hc]
    rfl
  · intro page limit q hp hl hlt
    unfold serviceList
    have hc : (decide (page < 1) || decide (limit < 1)) = false := by
      simp [not_lt.mpr hp, not_lt.mpr hl]
    rw [hc]
    have h0 : 0 ≤ (page - 1) * limit :=
      mul_nonneg (by omega) (by omega)
    have hwrap : wrap64 ((page - 1) * limit) = (page - 1) * limit := by
      unfold wrap64
      rw [Int.emod_eq_of_lt (by omega) (by omega)]
      omega
    rw [hwrap]
    rfl

/-- Witness for C9: a rejected page/limit pair and an accepted one with its
exact trimmed query and offset. -/
theorem c9_service_list_witness :
    serviceList 0 5 "x" = .error .invalidInput ∧
    serviceList 3 50 " q " = .ok ("q", 50, 100) :=
  ⟨c9_service_list.1 0 5 "x" (Or.inl (by decide)),
   c9_service_list.2 3 50 " q " (by decide) (by decide) (by decide)⟩

theorem buildUpdate_query_shape (id : String) (u : UpdateItemInput) :
    (buildUpdateStatement id u).map (fun st => st.query) = queryShape (patternOf u) := by
  obtain ⟨nm, ds, pr, sk, dp⟩ := u
  cases nm <;> cases ds <;> cases pr <;> cases sk <;> cases dp <;> rfl

/-- Claim C7: the SQL text composed by the store's Update is a function of
the presence pattern alone — two inputs with the same pattern yield
character-for-character the same query text, whatever their field values
and ids — and the values travel exclusively in the positional argument
list, as the present field values in order followed by the id. -/
theorem c7_query_text_depends_only_on_pattern :
    (∀ (id1 id2 : String) (u1 u2 : UpdateItemInput),
      patternOf u1 = patternOf u2 →
      (buildUpdateStatement id1 u1).map (fun st => st.query) =
        (buildUpdateStatement id2 u2).map (fun st => st.query)) ∧
    (∀ (id : String) (u : UpdateItemInput) (st : UpdateStmt),
      buildUpdateStatement id u = .ok st → st.args = expectedArgs id u) := by
  constructor
  · intro id1 id2 u1 u2 hpat
    rw [buildUpdate_query_shape, buildUpdate_query_shape, hpat]
  · intro id u st h
    obtain ⟨nm, ds, pr, sk, dp⟩ := u
    cases nm <;> cases ds <;> cases pr <;> cases sk <;> cases dp <;>
      cases h <;> rfl

/-- Witness for C7: two updates with the same presence pattern (name and
price present) but different values and ids compose the same SQL text, and
the first one's argument list is exactly its values followed by its id. -/
theorem c7_query_text_witness :
    (buildUpdateStatement "idA" ⟨some "Alice", none, some "1.00", none, false⟩).map
        (fun st => st.query) =
      (buildUpdateStatement "idB" ⟨some "Bob", none, some "9.99", none, false⟩).map
        (fun st => st.query) ∧
    (⟨["name = $1", "price = $2::numeric", "updated_at = now()"],
      [DbVal.str "Alice", DbVal.str "1.00", DbVal.str "idA"],
      "\n\t\tUPDATE items\n\t\tSET name = $1, price = $2::numeric, updated_at = now()\n\t\tWHERE id = $3\n\t\tRETURNING id, name, description, price::text, stock, created_at, updated_at;\n\t"⟩ :
        UpdateStmt).args =
      expectedArgs "idA" ⟨some "Alice", none, some "1.00", none, false⟩ :=
  ⟨c7_query_text_depends_only_on_pattern.1 "idA" "idB"
      ⟨some "Alice", none, some "1.00", none, false⟩
      ⟨some "Bob", none, some "9.99", none, false⟩ rfl,
   c7_query_text_depends_only_on_pattern.2 "idA"
      ⟨some "Alice", none, some "1.00", none, false⟩ _ rfl⟩

/-- Claim C6: the set-clause of the store's Update assigns exactly the
columns of the fields present (name/price/stock when non-nil, description
when the presence flag is set) plus an unconditional `updated_at` refresh;
and when no field is present the builder fails with `ErrorInvalidInput`
(precisely then), in which case the store executes nothing and the table is
unchanged. -/
theorem c6_update_setclause_exact :
    (∀ (id : String) (u : UpdateItemInput) (st : UpdateStmt),
      buildUpdateStatement id u = .ok st →
      st.setParts.map colName = presentColumns u ++ ["updated_at"]) ∧
    (∀ (id : String) (u : UpdateItemInput),
      buildUpdateStatement id u = .error .invalidInput ↔
        u.name = none ∧ u.descriptionPresent = false ∧ u.price = none ∧
          u.stock = none) ∧
    (∀ (db : Db) (now : Int) (id : String) (u : UpdateItemInput),
      u.name = none → u.descriptionPresent = false → u.price = none →
      u.stock = none → repoUpdateRun db now id u = (.error .invalidInput, db)) := by
  refine ⟨?_, ?_, ?_⟩
  · intro id u st h
    obtain ⟨nm, ds, pr, sk, dp⟩ := u
    cases nm <;> cases ds <;> cases pr <;> cases sk <;> cases dp <;>
      cases h <;> rfl
  · intro id u
    obtain ⟨nm, ds, pr, sk, dp⟩ := u
    cases nm <;> cases ds <;> cases pr <;> cases sk <;> cases dp <;>
      simp [buildUpdateStatement]
  · intro db now id u h1 h2 h3 h4
    obtain ⟨nm, ds, pr, sk, dp⟩ := u
    dsimp only at h1 h2 h3 h4
    subst h1 h2 h3 h4
    rfl

/-- Witness for C6: a name-and-stock update assigns exactly the columns
name, stock and updated_at; the empty update is rejected by the builder;
and the store leaves a concrete table untouched on the empty update. -/
theorem c6_update_setclause_witness :
    (⟨["name = $1", "stock = $2", "updated_at = now()"],
      [DbVal.str "W", DbVal.int 7, DbVal.str "idC"],
      "\n\t\tUPDATE items\n\t\tSET name = $1, stock = $2, updated_at = now()\n\t\tWHERE id = $3\n\t\tRETURNING id, name, description, price::text, stock, created_at, updated_at;\n\t"⟩ :
        UpdateStmt).setParts.map colName =
      presentColumns ⟨some "W", none, none, some 7, false⟩ ++ ["updated_at"] ∧
    buildUpdateStatement "idC" ⟨none, none, none, none, false⟩ =
      .error .invalidInput ∧
    repoUpdateRun sampleDb 5 "idC" ⟨none, none, none, none, false⟩ =
      (.error .invalidInput, sampleDb) :=
  ⟨c6_update_setclause_exact.1 "idC" ⟨some "W", none, none, some 7, false⟩ _ rfl,
   (c6_update_setclause_exact.2.1 "idC" ⟨none, none, none, none, false⟩).mpr
      ⟨rfl, rfl, rfl, rfl⟩,
   c6_update_setclause_exact.2.2 sampleDb 5 "idC"
      ⟨none, none, none, none, false⟩ rfl rfl rfl rfl⟩

theorem updateCheckStock_err (u : UpdateItemInput) (s : Int)
    (hs : u.stock = some s) (h : s < 0) :
    updateCheckStock u = .error .invalidInput := by
  unfold updateCheckStock
  rw [hs]
  simp [h]

theorem updateCheckPrice_err_stock (u : UpdateItemInput) (s : Int)
    (hs : u.stock = some s) (h : s < 0) :
    updateCheckPrice u = .error .invalidInput := by
  obtain ⟨nm, ds, pr, sk, dp⟩ := u
  dsimp only at hs
  subst hs
  unfold updateCheckPrice
  cases pr with
  | none => exact updateCheckStock_err _ s rfl h
  | some p =>
      dsimp only
      split
      · rfl
      · split
        · rfl
        · exact updateCheckStock_err _ s rfl h

theorem updateCheckPrice_err_price (u : UpdateItemInput) (p : String)
    (hp : u.price = some p) (hinv : isValidPrice (goTrim p) = false) :
    updateCheckPrice u = .error .invalidInput := by
  obtain ⟨nm, ds, pr, sk, dp⟩ := u
  dsimp only at hp
  subst hp
  unfold updateCheckPrice
  dsimp only
  split
  · rfl
  · rw [if_pos (by simp [hinv])]

theorem serviceUpdateCheck_err_noField (u : UpdateItemInput)
    (h1 : u.name = none) (h2 : u.description = none) (h3 : u.price = none)
    (h4 : u.stock = none) : serviceUpdateCheck u = .error .invalidInput := by
  unfold serviceUpdateCheck
  rw [if_pos ⟨h1, h2, h3, h4⟩]

theorem serviceUpdateCheck_err_name (u : UpdateItemInput) (n : String)
    (hn : u.name = some n) (he : goTrim n = "") :
    serviceUpdateCheck u = .error .invalidInput := by
  obtain ⟨nm, ds, pr, sk, dp⟩ := u
  dsimp only at hn
  subst hn
  unfold serviceUpdateCheck
  rw [if_neg fun hcon => Option.noConfusion hcon.1]
  dsimp only
  rw [if_pos he]

theorem serviceUpdateCheck_err_price (u : UpdateItemInput) (p : String)
    (hp : u.price = some p) (hinv : isValidPrice (goTrim p) = false) :
    serviceUpdateCheck u = .error .invalidInput := by
  obtain ⟨nm, ds, pr, sk, dp⟩ := u
  dsimp only at hp
  subst hp
  unfold serviceUpdateCheck
  rw [if_neg fun hcon => Option.noConfusion hcon.2.2.1]
  cases nm with
  | none => exact updateCheckPrice_err_price _ p rfl hinv
  | some n =>
      dsimp only
      split
      · rfl
      · exact updateCheckPrice_err_price _ p rfl hinv

theorem serviceUpdateCheck_err_stock (u : UpdateItemInput) (s : Int)
    (hs : u.stock = some s) (h : s < 0) :
    serviceUpdateCheck u = .error .invalidInput := by
  obtain ⟨nm, ds, pr, sk, dp⟩ := u
  dsimp only at hs
  subst hs
  unfold serviceUpdateCheck
  rw [if_neg fun hcon => Option.noConfusion hcon.2.2.2]
  cases nm with
  | none => exact updateCheckPrice_err_stock _ s rfl h
  | some n =>
      dsimp only
      split
      · rfl
      · exact updateCheckPrice_err_stock _ s rfl h

/-- Claim C4: every create or update input violating a validation rule —
for create: name empty after trimming, price failing the decimal-pattern or
all-zero check, or negative stock; for update: no recognized field present,
a present name empty after trimming, a present price failing validation, or
a present negative stock — makes the service return `ErrorInvalidInput`
with the store never invoked, so the stored state is unchanged. -/
theorem c4_invalid_input_never_reaches_store :
    (∀ (db : Db) (genId : String) (now : Int) (input : CreateItemInput),
      (goTrim input.name = "" ∨ isValidPrice (goTrim input.price) = false ∨
        input.stock < 0) →
      serviceCreateRun db genId now input = (.error .invalidInput, db)) ∧
    (∀ (db : Db) (now : Int) (id : String) (u : UpdateItemInput),
      ((u.name = none ∧ u.description = none ∧ u.price = none ∧
          u.stock = none ∧ u.descriptionPresent = false) ∨
        (∃ n, u.name = some n ∧ goTrim n = "") ∨
        (∃ p, u.price = some p ∧ isValidPrice (goTrim p) = false) ∨
        (∃ s, u.stock = some s ∧ s < 0)) →
      serviceUpdateRun db now id u = (.error .invalidInput, db)) := by
  constructor
  · intro db genId now input h
    have hc : serviceCreateCheck input = .error .invalidInput := by
      unfold serviceCreateCheck
      dsimp only
      split_ifs with h1 h2 h3 h4
      · rfl
      · rfl
      · rfl
      · rfl
      · exfalso
        rcases h with h | h | h
        · exact h1 h
        · simp [h] at h3
        · exact h4 h
    unfold serviceCreateRun
    rw [hc]
  · intro db now id u h
    have hc : serviceUpdateCheck u = .error .invalidInput := by
      rcases h with ⟨h1, h2, h3, h4, _⟩ | ⟨n, hn, he⟩ | ⟨p, hp, hinv⟩ | ⟨s, hs, hneg⟩
      · exact serviceUpdateCheck_err_noField u h1 h2 h3 h4
      · exact serviceUpdateCheck_err_name u n hn he
      · exact serviceUpdateCheck_err_price u p hp hinv
      · exact serviceUpdateCheck_err_stock u s hs hneg
    unfold serviceUpdateRun
    rw [hc]

/-- Witness for C4: a create with a blank name and the spec's own example,
an update setting price "0", both rejected with the table untouched. -/
theorem c4_invalid_input_witness :
    serviceCreateRun sampleDb "g1" 7 ⟨"  ", none, "10.00", 1⟩ =
      (.error .invalidInput, sampleDb) ∧
    serviceUpdateRun sampleDb 7 sampleItem.id ⟨none, none, some "0", none, false⟩ =
      (.error .invalidInput, sampleDb) :=
  ⟨c4_invalid_input_never_reaches_store.1 sampleDb "g1" 7
      ⟨"  ", none, "10.00", 1⟩ (Or.inl (by decide)),
   c4_invalid_input_never_reaches_store.2 sampleDb 7 sampleItem.id
      ⟨none, none, some "0", none, false⟩
      (Or.inr (Or.inr (Or.inl ⟨"0", rfl, by decide⟩)))⟩

theorem flatten_chunks {α : Type} (l : List α) (limit : Nat) (n : Nat) :
    ((List.range n).map fun k => (l.drop (k * limit)).take limit).flatten
      = l.take (n * limit) := by
  induction n with
  | zero => simp
  | succ m ih =>
      rw [List.range_succ, List.map_append, List.flatten_append, ih]
      simp only [List.map_cons, List.map_nil, List.flatten_cons,
        List.flatten_nil, List.append_nil]
      rw [Nat.succ_mul, List.take_add]

/-- Claim C8: the row filter of the store's Count is the same predicate as
the row filter of its List, and consequently `Count(query)` equals the
total number of rows List can return across all pages: once `n` pages of
size `limit` cover the count, the pages `offset = 0, limit, 2*limit, ...`
concatenate to exactly `Count(query)` rows. -/
theorem c8_count_matches_list_pages :
    (∀ q rowName : String, listRowMatches q rowName = countRowMatches q rowName) ∧
    (∀ (db : Db) (q : String) (limit n : Nat),
      repoCount db q ≤ n * limit →
      (((List.range n).map fun k => repoList db q limit (k * limit)).flatten).length
        = repoCount db q) := by
  constructor
  · intro q rowName
    rfl
  · intro db q limit n h
    have hlen :
        (sortByCreatedDesc (db.filter fun r => listRowMatches q r.name)).length
          = repoCount db q := by
      unfold sortByCreatedDesc
      rw [(List.mergeSort_perm _ _).length_eq]
      rfl
    unfold repoList
    rw [flatten_chunks, List.take_of_length_le (by rw [hlen]; exact h)]
    exact hlen

/-- Witness for C8 on a concrete two-row table: with query "phone", one
page of size 5 already covers the count, and the concatenated pages hold
exactly `Count` rows. -/
theorem c8_count_matches_list_witness :
    (((List.range 1).map fun k => repoList sampleListDb "phone" 5 (k * 5)).flatten).length
      = repoCount sampleListDb "phone" :=
  c8_count_matches_list_pages.2 sampleListDb "phone" 5 1 (by decide)

end Catalog
